import Mathlib

/-!
# Inkwell — card identification pipeline, shallow embedding

A shallow embedding of the Inkwell card-identification server
(`inkwell-core/src/lib.rs`, `inkwell-server/src/main.rs`,
`inkwell-server/src/ingest.rs`) and proofs about the claims of its
specification.

Modelling conventions:
* Bytes are `Nat` (values < 256 play no arithmetic role here).
* `DMatch.distance` is a Hamming distance: an integer count of differing
  bits, at most 488 for 61-byte descriptors.  OpenCV stores it in an `f32`,
  which represents every integer up to 488 exactly, and `0.75 * d` is also
  exact for such `d` (3·d ≤ 1464 < 2^24), so the source's `f32` comparison
  `best.distance < 0.75 * second.distance` coincides with the exact rational
  comparison `4 * best < 3 * second`; the embedding uses the latter.
* The SQLite stats table is a record holding the counter value; the
  best-effort UPDATE / SELECT of the handler are modelled with explicit
  success flags.
* `spawn_blocking` panics are modelled by `Option`: `none` is a panicked
  worker, and the handler's `unwrap_or_else` recovery is explicit.
-/

namespace Inkwell

/-! ## Data model (`inkwell-core/src/lib.rs`) -/

/-- `Card` from `inkwell-core/src/lib.rs`.  `card_number` is a `u32` and
`akaze_data` an opaque byte buffer of concatenated 61-byte descriptors. -/
structure Card where
  id : String
  name : String
  subtitle : String
  phash : String
  akaze_data : List Nat
  image_url : String
  rarity : String
  promo_grouping : Option String
  set_code : String
  card_number : Nat
deriving Repr, DecidableEq

/-- `ScanResult` from `inkwell-core/src/lib.rs`; `confidence` is an `f64`
modelled as an exact rational. -/
structure ScanResult where
  card : Option Card
  confidence : ℚ
  global_total_scans : Nat
deriving Repr

/-! ## Descriptor codec (`inkwell-core/src/lib.rs`, `akaze_bytes_to_mat`) -/

/-- `AKAZE_DESC_SIZE` from `inkwell-core/src/lib.rs`. -/
def AKAZE_DESC_SIZE : Nat := 61

/-- An OpenCV `Mat` of bytes: shape plus row-major data. -/
structure MatE where
  rows : Nat
  cols : Nat
  data : List Nat
deriving Repr, DecidableEq

/-- `akaze_bytes_to_mat` from `inkwell-core/src/lib.rs`.

The source builds a 1×n `Mat` from the byte slice and calls
`reshape(1, n / 61)`.  OpenCV's `Mat::reshape(cn, new_rows)` semantics:
with `new_rows = 0` the row count is kept (so a 1×n mat stays 1×n); with
`new_rows` equal to the current row count nothing changes (again 1×n);
otherwise it requires the total element count to be divisible by
`new_rows` and errors with "The total number of matrix elements is not
divisible by the new number of rows" when it is not.  The empty input is
returned as `Mat::default()` (0×0) before any reshape. -/
def akaze_bytes_to_mat (bytes : List Nat) : Except String MatE :=
  if bytes = [] then
    .ok ⟨0, 0, []⟩
  else
    let n := bytes.length
    let r := n / AKAZE_DESC_SIZE
    if r ≤ 1 then
      .ok ⟨1, n, bytes⟩
    else if n % r = 0 then
      .ok ⟨r, n / r, bytes⟩
    else
      .error "The total number of matrix elements is not divisible by the new number of rows"

/-! ### Codec helper lemmas -/

theorem akaze_nil : akaze_bytes_to_mat [] = .ok ⟨0, 0, []⟩ := rfl

theorem akaze_small (b : List Nat) (hne : b ≠ []) (hlt : b.length < 122) :
    akaze_bytes_to_mat b = .ok ⟨1, b.length, b⟩ := by
  unfold akaze_bytes_to_mat
  rw [if_neg hne, if_pos]
  show b.length / AKAZE_DESC_SIZE ≤ 1
  unfold AKAZE_DESC_SIZE
  omega

theorem akaze_big_div (b : List Nat) (hge : 122 ≤ b.length)
    (hdvd : b.length % (b.length / 61) = 0) :
    akaze_bytes_to_mat b =
      .ok ⟨b.length / 61, b.length / (b.length / 61), b⟩ := by
  have hne : b ≠ [] := by
    intro h; rw [h] at hge; simp at hge
  unfold akaze_bytes_to_mat AKAZE_DESC_SIZE
  rw [if_neg hne, if_neg (by omega), if_pos hdvd]

theorem akaze_big_nondiv (b : List Nat) (hge : 122 ≤ b.length)
    (hdvd : b.length % (b.length / 61) ≠ 0) :
    akaze_bytes_to_mat b =
      .error "The total number of matrix elements is not divisible by the new number of rows" := by
  have hne : b ≠ [] := by
    intro h; rw [h] at hge; simp at hge
  unfold akaze_bytes_to_mat AKAZE_DESC_SIZE
  rw [if_neg hne, if_neg (by omega), if_neg hdvd]

/-- On a non-empty buffer whose length is a positive multiple of 61 the
decoder succeeds with exactly 61 columns. -/
theorem akaze_mult61 (b : List Nat) (hne : b ≠ [])
    (hmod : b.length % 61 = 0) :
    akaze_bytes_to_mat b = .ok ⟨b.length / 61, 61, b⟩ := by
  have hlen : b.length ≠ 0 := by
    intro h; exact hne (List.eq_nil_of_length_eq_zero h)
  rcases lt_or_le b.length 122 with hlt | hge
  · have h61 : b.length = 61 := by omega
    rw [akaze_small b hne hlt]
    congr 1
    rw [h61]
  · set r := b.length / 61 with hr
    have hbe : r * 61 = b.length := Nat.div_mul_cancel (Nat.dvd_of_mod_eq_zero hmod)
    have hrpos : 0 < r := by omega
    have hmodr : b.length % r = 0 := by
      rw [← hbe]; exact Nat.mul_mod_right r 61
    have hdivr : b.length / r = 61 := by
      rw [← hbe]; exact Nat.mul_div_cancel_left 61 hrpos
    rw [akaze_big_div b hge hmodr]
    rw [hdivr]

/-- Whenever decoding succeeds, the matrix carries the input bytes, and a
non-empty multiple-of-61 input always yields 61 columns. -/
theorem akaze_ok_inv (b : List Nat) (m : MatE)
    (h : akaze_bytes_to_mat b = .ok m) :
    m.data = b ∧ (b ≠ [] → b.length % 61 = 0 → m.cols = 61) := by
  by_cases hne : b = []
  · subst hne
    rw [akaze_nil] at h
    cases h
    exact ⟨rfl, fun hc _ => absurd rfl hc⟩
  · constructor
    · rcases lt_or_le b.length 122 with hlt | hge
      · rw [akaze_small b hne hlt] at h; cases h; rfl
      · by_cases hdvd : b.length % (b.length / 61) = 0
        · rw [akaze_big_div b hge hdvd] at h; cases h; rfl
        · rw [akaze_big_nondiv b hge hdvd] at h; cases h
    · intro _ hmod
      rw [akaze_mult61 b hne hmod] at h
      cases h
      rfl

/-! ## In-memory index (`inkwell-server/src/main.rs`, `load_index`) -/

/-- A row of the `cards` table as selected by `load_index`'s query
(`SELECT id, name, subtitle, phash, image_url, akaze_data, rarity,
set_code, card_number FROM cards`). -/
structure DbRow where
  id : String
  name : String
  subtitle : String
  phash : String
  image_url : String
  akaze_data : List Nat
  rarity : String
  set_code : String
  card_number : Nat
deriving Repr, DecidableEq

/-- The `Card` value `load_index` builds from a row (`promo_grouping` is
not selected by the query and is absent/defaulted). -/
def rowToCard (row : DbRow) : Card :=
  { id := row.id
    name := row.name
    subtitle := row.subtitle
    phash := row.phash
    akaze_data := row.akaze_data
    image_url := row.image_url
    rarity := row.rarity
    promo_grouping := none
    set_code := row.set_code
    card_number := row.card_number }

/-- `GlobalIndex` from `inkwell-server/src/main.rs`: the matcher-ready
stack of descriptor matrices and the parallel card list. -/
structure GlobalIndex where
  train_vec : List MatE
  cards : List Card
deriving Repr

/-- `load_index` from `inkwell-server/src/main.rs`: for each row, decode
its descriptor blob; on success push the matrix and the card, otherwise
skip the row.  (There is no emptiness check on `akaze_data`: the empty
blob decodes to the empty matrix and the row is kept.) -/
def load_index : List DbRow → GlobalIndex
  | [] => ⟨[], []⟩
  | row :: rest =>
      let tail := load_index rest
      match akaze_bytes_to_mat row.akaze_data with
      | .ok m => ⟨m :: tail.train_vec, rowToCard row :: tail.cards⟩
      | .error _ => tail

/-! ## Match engine (`inkwell-server/src/main.rs`, `identify_card`) -/

/-- An OpenCV `DMatch` as used by the engine: the Hamming distance of the
matched training descriptor and the index (`img_idx`) of the training
image it came from.  The distance is an exact integer (see the header
note on `f32` exactness). -/
structure DMatch where
  distance : Nat
  imgIdx : Nat
deriving Repr, DecidableEq

/-- `MIN_GOOD_MATCHES` from `identify_card`. -/
def MIN_GOOD_MATCHES : Nat := 50

/-- The ratio-test vote of one KNN result group `m` (the body of the
`for m in matches` loop): a vote is cast for `m[0].img_idx` iff the group
has exactly two neighbors and `m[0].distance < 0.75 * m[1].distance`.
`4 * d₀ < 3 * d₁` is the exact value of that `f32` comparison on integer
Hamming distances. -/
def voteTarget : List DMatch → Option Nat
  | [a, b] => if 4 * a.distance < 3 * b.distance then some a.imgIdx else none
  | _ => none

/-- The votes map built by the loop: how many accepted matches voted for
reference `i`. -/
def votesOf (matchList : List (List DMatch)) (i : Nat) : Nat :=
  (matchList.filterMap voteTarget).count i

/-- `iter` is a possible iteration sequence of the `HashMap` of votes
built from `matchList`: keys are distinct, every entry is a key with its
vote count (necessarily positive), and every cast vote's target occurs.
Rust's `HashMap` iteration order is otherwise unconstrained. -/
def validVoteIter (matchList : List (List DMatch)) (iter : List (Nat × Nat)) : Prop :=
  iter.Pairwise (fun a b => a.1 ≠ b.1) ∧
  (∀ p ∈ iter, votesOf matchList p.1 = p.2 ∧ 0 < p.2) ∧
  (∀ i ∈ matchList.filterMap voteTarget, i ∈ iter.map Prod.fst)

/-- The vote-aggregation loop (`for (card_idx, vote_count) in votes`):
starting from `max_good_matches = 0`, `best_card = None`, take a new
maximum whenever `vote_count > max_good_matches`, cloning
`cards[card_idx]`.  The out-of-range panic of `cards[card_idx]` is the
`none` of the `Option` monad. -/
def aggregateCards (cards : List Card) (iter : List (Nat × Nat)) :
    Option (Nat × Option Card) :=
  iter.foldlM
    (fun acc p =>
      if acc.1 < p.2 then (cards.get? p.1).map (fun c => (p.2, some c))
      else some acc)
    (0, none)

/-- The no-match result: `card = None`, `confidence = 0.0` (the counter
placeholder is 0 inside the worker). -/
def noMatchResult : ScanResult :=
  { card := none, confidence := 0, global_total_scans := 0 }

/-- The report step of `identify_card`: if a best card exists and
`max_good_matches >= MIN_GOOD_MATCHES`, return it with confidence
`(max_good_matches as f64 / 100.0).min(1.0)`; otherwise no match. -/
def reportResult (best_card : Option Card) (max_good_matches : Nat) : ScanResult :=
  match best_card with
  | some card =>
      if MIN_GOOD_MATCHES ≤ max_good_matches then
        { card := some card
          confidence := min ((max_good_matches : ℚ) / 100) 1
          global_total_scans := 0 }
      else noMatchResult
  | none => noMatchResult

/-- The possible outcomes of the fallible steps inside the
`spawn_blocking` closure of `identify_card`, in source order.  `matched`
carries the KNN result groups together with the iteration sequence in
which the votes `HashMap` is traversed. -/
inductive WorkerInput where
  | panicked
  | decodeFailed
  | akazeFailed
  | noFeatures
  | queryMatFailed
  | matcherCreateFailed
  | addFailed
  | trainFailed
  | knnFailed
  | matched (matchList : List (List DMatch)) (voteIter : List (Nat × Nat))
deriving Repr

/-- The `spawn_blocking` closure of `identify_card`.  Every early-exit
failure returns the no-match result; a panic (including the aggregation
loop's out-of-range index) is `none`. -/
def runWorker (idx : GlobalIndex) (input : WorkerInput) : Option ScanResult :=
  match input with
  | .panicked => none
  | .matched _ms voteIter =>
      (aggregateCards idx.cards voteIter).map
        (fun acc => reportResult acc.2 acc.1)
  | _ => some noMatchResult

/-! ## Scan counter and identify service (`identify_card`, tail section) -/

/-- The `system_stats` row `total_scanned_cards`. -/
structure StatsDb where
  total : Nat
deriving Repr, DecidableEq

/-- The tail of `identify_card` after the blocking task: recover a panic
to the no-match result (`unwrap_or_else`); if the result has a card,
attempt (`incOk`) the best-effort `UPDATE ... value = value + 1`; then
attempt (`readOk`) the `SELECT value` and store it into
`global_total_scans`, leaving the field untouched when the read fails. -/
def identifyHandler (idx : GlobalIndex) (input : WorkerInput) (db : StatsDb)
    (incOk readOk : Bool) : ScanResult × StatsDb :=
  let scan := (runWorker idx input).getD noMatchResult
  let db' := if scan.card.isSome && incOk then StatsDb.mk (db.total + 1) else db
  let scan' := if readOk then { scan with global_total_scans := db'.total } else scan
  (scan', db')

/-! ## Ingestion completeness check (`inkwell-server/src/ingest.rs`) -/

/-- A stored `cards` row as seen by the completeness query: the two
columns it constrains, both nullable at the SQL level. -/
structure StoredCard where
  phash : Option String
  akaze_data : Option (List Nat)
deriving Repr, DecidableEq

/-- The completeness check of `run_ingestion`
(`SELECT id FROM cards WHERE id = ? AND akaze_data IS NOT NULL AND
phash IS NOT NULL AND phash != ''` returning a row): true iff the record
exists, its `akaze_data` is non-NULL (an empty blob is non-NULL and
passes), and its `phash` is non-NULL and non-empty. -/
def has_complete (rec : Option StoredCard) : Bool :=
  match rec with
  | none => false
  | some r =>
      r.akaze_data.isSome &&
        (match r.phash with
         | some s => !(s == "")
         | none => false)

/-- `needs_image_processing = !local_path.exists() || existing_card.is_none()`
from `run_ingestion`. -/
def needs_image_processing (localPathExists : Bool) (rec : Option StoredCard) : Bool :=
  !localPathExists || !(has_complete rec)

/-! ## JSON serialization of the response (serde on `ScanResult`) -/

/-- A JSON value, as produced by `serde_json`. -/
inductive Json where
  | null
  | num (q : ℚ)
  | str (s : String)
  | arr (elems : List Json)
  | obj (fields : List (String × Json))
deriving Repr

/-- The fields serde emits for a `Card`, in declaration order.
`akaze_data` carries `#[serde(skip_serializing_if = "Vec::is_empty")]`:
it is emitted (as an array of numbers) exactly when the buffer is
non-empty.  `promo_grouping : Option<String>` serializes as the string or
`null`. -/
def cardFields (c : Card) : List (String × Json) :=
  [("id", Json.str c.id), ("name", Json.str c.name),
   ("subtitle", Json.str c.subtitle), ("phash", Json.str c.phash)] ++
  (if c.akaze_data.isEmpty then []
   else [("akaze_data", Json.arr (c.akaze_data.map (fun b => Json.num b)))]) ++
  [("image_url", Json.str c.image_url), ("rarity", Json.str c.rarity),
   ("promo_grouping",
     match c.promo_grouping with
     | some s => Json.str s
     | none => Json.null),
   ("set_code", Json.str c.set_code),
   ("card_number", Json.num c.card_number)]

/-- serde serialization of a `Card`. -/
def serializeCard (c : Card) : Json := Json.obj (cardFields c)

/-- serde serialization of the `ScanResult` body returned by
`POST /api/identify` (`Json(final_result)`). -/
def serializeScanResult (r : ScanResult) : Json :=
  Json.obj
    [("card",
       match r.card with
       | some c => serializeCard c
       | none => Json.null),
     ("confidence", Json.num r.confidence),
     ("global_total_scans", Json.num r.global_total_scans)]

/-! ## Shared helper lemmas and fixtures -/

/-- The exact value of the source's `f32` comparison
`d1 < 0.75 * d2` on integer Hamming distances (see the header note). -/
theorem ratio_exact (d1 d2 : Nat) :
    (4 * d1 < 3 * d2) ↔ ((d1 : ℚ) < 3 / 4 * (d2 : ℚ)) := by
  rw [show (3 / 4 : ℚ) * (d2 : ℚ) = (3 * d2) / 4 by ring]
  rw [lt_div_iff₀ (by norm_num : (0 : ℚ) < 4)]
  constructor
  · intro h
    have h2 : ((4 * d1 : ℕ) : ℚ) < ((3 * d2 : ℕ) : ℚ) := by exact_mod_cast h
    push_cast at h2
    linarith
  · intro h
    have h2 : ((4 * d1 : ℕ) : ℚ) < ((3 * d2 : ℕ) : ℚ) := by push_cast; linarith
    exact_mod_cast h2

/-- A generic card fixture. -/
def testCard : Card :=
  { id := "1-1", name := "Test", subtitle := "", phash := "00"
    akaze_data := [], image_url := "u.jpg", rarity := "Common"
    promo_grouping := none, set_code := "1", card_number := 1 }

/-! ## C6 — descriptor decode on lengths not a multiple of 61 -/

/-- C6 counterexample: a 62-byte buffer has length not a multiple of 61,
yet `akaze_bytes_to_mat` succeeds (with a 1×62 matrix) instead of failing
with an invalid-blob error; the claimed universal failure is false. -/
theorem c6_counterexample :
    (List.replicate 62 0).length % 61 ≠ 0 ∧
    akaze_bytes_to_mat (List.replicate 62 0) =
      .ok ⟨1, 62, List.replicate 62 0⟩ := by
  constructor
  · decide
  · rfl

/-- C6 (amended): the empty buffer decodes to the empty matrix; a
non-empty buffer shorter than 122 bytes always decodes to a 1×n matrix
(never an error, even when n is not a multiple of 61); a buffer of length
n ≥ 122 decodes iff `n / 61` divides n, and errors otherwise; a non-empty
buffer whose length is a multiple of 61 always decodes to an
(n/61)×61 matrix. -/
theorem c6_decode (b : List Nat) :
    (b = [] → akaze_bytes_to_mat b = .ok ⟨0, 0, []⟩) ∧
    (b ≠ [] → b.length < 122 →
      akaze_bytes_to_mat b = .ok ⟨1, b.length, b⟩) ∧
    (122 ≤ b.length → b.length % (b.length / 61) = 0 →
      akaze_bytes_to_mat b =
        .ok ⟨b.length / 61, b.length / (b.length / 61), b⟩) ∧
    (122 ≤ b.length → b.length % (b.length / 61) ≠ 0 →
      akaze_bytes_to_mat b =
        .error "The total number of matrix elements is not divisible by the new number of rows") ∧
    (b ≠ [] → b.length % 61 = 0 →
      akaze_bytes_to_mat b = .ok ⟨b.length / 61, 61, b⟩) := by
  refine ⟨?_, ?_, ?_, ?_, ?_⟩
  · intro h; subst h; rfl
  · exact akaze_small b
  · exact akaze_big_div b
  · exact akaze_big_nondiv b
  · exact akaze_mult61 b

/-- C6 witness: a 122-byte buffer decodes to a 2×61 matrix. -/
theorem c6_decode_witness :
    akaze_bytes_to_mat (List.replicate 122 3) =
      .ok ⟨2, 61, List.replicate 122 3⟩ :=
  (c6_decode (List.replicate 122 3)).2.2.2.2 (by decide) (by decide)

/-! ## C7 — ingestion completeness check -/

/-- C7 counterexample: a stored record whose `akaze_data` is the empty
(non-NULL) byte buffer and whose `phash` is non-empty IS considered
complete by the SQL check, and with its image file present it is NOT
re-processed — contradicting the claim that an empty `akaze_data` makes
the record incomplete. -/
theorem c7_counterexample :
    has_complete (some ⟨some "ab", some []⟩) = true ∧
    needs_image_processing true (some ⟨some "ab", some []⟩) = false := by
  constructor
  · rfl
  · rfl

/-- C7 (amended): the completeness check is true iff the record exists,
its `akaze_data` column is non-NULL (an empty blob passes) and its
`phash` is non-NULL and non-empty; a complete record with its image file
present is not re-processed, while a missing image file always forces
processing. -/
theorem c7_has_complete :
    has_complete none = false ∧
    (∀ r : StoredCard,
      has_complete (some r) = true ↔
        r.akaze_data.isSome = true ∧ r.phash.getD "" ≠ "") ∧
    (∀ rec : Option StoredCard,
      needs_image_processing true rec = !(has_complete rec)) ∧
    (∀ rec : Option StoredCard, needs_image_processing false rec = true) := by
  refine ⟨rfl, ?_, ?_, ?_⟩
  · intro r
    obtain ⟨p, a⟩ := r
    cases p <;> cases a <;>
      simp [has_complete, Option.getD]
  · intro rec
    simp [needs_image_processing]
  · intro rec
    simp [needs_image_processing]

/-- C7 witness: a record with non-empty phash and a one-byte descriptor
blob is complete. -/
theorem c7_has_complete_witness :
    has_complete (some ⟨some "ff", some [1, 2]⟩) = true :=
  (c7_has_complete.2.1 ⟨some "ff", some [1, 2]⟩).mpr (by decide)

/-! ## C2 — Lowe ratio test gating of votes -/

/-- C2: the per-group vote of the match loop is cast for the best
neighbor's reference iff exactly two neighbors were returned and
`best.distance < 0.75 * second.distance` (exact `f32` comparison);
in particular no vote is counted when
`best.distance >= 0.75 * second.distance`, and equal distances never
pass. -/
theorem c2_ratio_test (m : List DMatch) :
    (∀ i : Nat, voteTarget m = some i ↔
      ∃ a b, m = [a, b] ∧
        (a.distance : ℚ) < 3 / 4 * (b.distance : ℚ) ∧ i = a.imgIdx) ∧
    (∀ a b, m = [a, b] →
      3 / 4 * (b.distance : ℚ) ≤ (a.distance : ℚ) → voteTarget m = none) ∧
    (∀ a b, m = [a, b] → a.distance = b.distance → voteTarget m = none) := by
  refine ⟨?_, ?_, ?_⟩
  · intro i
    match m with
    | [] => simp [voteTarget]
    | [a] => simp [voteTarget]
    | a :: b :: c :: rest => simp [voteTarget]
    | [a, b] =>
      simp only [voteTarget]
      by_cases h : 4 * a.distance < 3 * b.distance
      · rw [if_pos h]
        constructor
        · intro he
          exact ⟨a, b, rfl, (ratio_exact a.distance b.distance).mp h,
            (Option.some_injective _ he).symm⟩
        · rintro ⟨a', b', he, -, hi⟩
          injection he with ha hbt
          injection hbt with hb hnil
          subst ha
          subst hb
          rw [hi]
      · rw [if_neg h]
        constructor
        · intro he; cases he
        · rintro ⟨a', b', he, hlt, -⟩
          injection he with ha hbt
          injection hbt with hb hnil
          subst ha
          subst hb
          exact absurd ((ratio_exact a.distance b.distance).mpr hlt) h
  · intro a b hm hle
    subst hm
    simp only [voteTarget]
    rw [if_neg]
    intro hlt
    exact absurd hle (not_le.mpr ((ratio_exact a.distance b.distance).mp hlt))
  · intro a b hm hd
    subst hm
    simp only [voteTarget]
    rw [if_neg]
    rw [hd]
    omega

/-- C2 witness: with distances 3 and 4 (3 ≥ 0.75·4), no vote is cast. -/
theorem c2_ratio_test_witness :
    voteTarget [⟨3, 0⟩, ⟨4, 1⟩] = none :=
  (c2_ratio_test [⟨3, 0⟩, ⟨4, 1⟩]).2.1 ⟨3, 0⟩ ⟨4, 1⟩ rfl (by norm_num)

/-! ## C3 — confidence formula and threshold -/

/-- C3: when a best card exists with `winning_votes` accepted matches,
a count below `MIN_GOOD_MATCHES = 50` yields a no-match with confidence
0.0; otherwise the card is returned with confidence
`min(1.0, winning_votes / 100.0)`, which lies in `[0, 1]`. -/
theorem c3_confidence (card : Card) (v : Nat) :
    (v < 50 →
      reportResult (some card) v = noMatchResult ∧
      (reportResult (some card) v).confidence = 0) ∧
    (50 ≤ v →
      (reportResult (some card) v).card = some card ∧
      (reportResult (some card) v).confidence = min 1 ((v : ℚ) / 100) ∧
      0 ≤ (reportResult (some card) v).confidence ∧
      (reportResult (some card) v).confidence ≤ 1) := by
  constructor
  · intro hlt
    have h : ¬ MIN_GOOD_MATCHES ≤ v := by
      unfold MIN_GOOD_MATCHES; omega
    constructor
    · simp only [reportResult, if_neg h]
    · simp only [reportResult, if_neg h]
      rfl
  · intro hge
    have h : MIN_GOOD_MATCHES ≤ v := by
      unfold MIN_GOOD_MATCHES; omega
    have hcard : (reportResult (some card) v).card = some card := by
      simp only [reportResult, if_pos h]
    have hconf : (reportResult (some card) v).confidence =
        min ((v : ℚ) / 100) 1 := by
      simp only [reportResult, if_pos h]
    refine ⟨hcard, ?_, ?_, ?_⟩
    · rw [hconf]; exact min_comm _ _
    · rw [hconf]; exact le_min (by positivity) (by norm_num)
    · rw [hconf]; exact min_le_right _ _

/-- C3 witness: at 60 accepted matches the card is returned with
confidence `min(1, 60/100)`, inside `[0, 1]`. -/
theorem c3_confidence_witness :
    (reportResult (some testCard) 60).card = some testCard ∧
    (reportResult (some testCard) 60).confidence = min 1 ((60 : ℚ) / 100) ∧
    0 ≤ (reportResult (some testCard) 60).confidence ∧
    (reportResult (some testCard) 60).confidence ≤ 1 :=
  (c3_confidence testCard 60).2 (by norm_num)

/-! ## C4 — scan counter semantics -/

/-- C4: in one identify response, when the counter UPDATE succeeds the
persistent counter grows by exactly 1 iff the result card is non-null
(never twice); the counter never decreases even when the UPDATE fails;
and when the SELECT succeeds the response's `global_total_scans` is the
counter value read after the optional increment, including on no-match. -/
theorem c4_counter (idx : GlobalIndex) (input : WorkerInput) (db : StatsDb)
    (incOk readOk : Bool) :
    (incOk = true →
      (identifyHandler idx input db incOk readOk).2.total =
        db.total +
          (if (identifyHandler idx input db incOk readOk).1.card.isSome
           then 1 else 0)) ∧
    db.total ≤ (identifyHandler idx input db incOk readOk).2.total ∧
    (readOk = true →
      (identifyHandler idx input db incOk readOk).1.global_total_scans =
        (identifyHandler idx input db incOk readOk).2.total) := by
  unfold identifyHandler
  cases hk : ((runWorker idx input).getD noMatchResult).card.isSome <;>
    cases incOk <;> cases readOk <;>
      simp [hk]

/-- C4 witness: a failed decode leaves the counter at 5 and reports 5 as
the global scan count. -/
theorem c4_counter_witness :
    ((identifyHandler ⟨[], []⟩ .decodeFailed ⟨5⟩ true true).2.total =
      5 +
        (if (identifyHandler ⟨[], []⟩ .decodeFailed ⟨5⟩ true true).1.card.isSome
         then 1 else 0)) ∧
    (5 : Nat) ≤ (identifyHandler ⟨[], []⟩ .decodeFailed ⟨5⟩ true true).2.total ∧
    (identifyHandler ⟨[], []⟩ .decodeFailed ⟨5⟩ true true).1.global_total_scans =
      (identifyHandler ⟨[], []⟩ .decodeFailed ⟨5⟩ true true).2.total :=
  ⟨(c4_counter ⟨[], []⟩ .decodeFailed ⟨5⟩ true true).1 rfl,
   (c4_counter ⟨[], []⟩ .decodeFailed ⟨5⟩ true true).2.1,
   (c4_counter ⟨[], []⟩ .decodeFailed ⟨5⟩ true true).2.2 rfl⟩

/-! ## C10 — panic of the blocking worker -/

/-- C10: whenever the blocking worker panics (`runWorker` yields `none`),
the endpoint still answers with a well-formed no-match result — card
null, confidence 0.0 — the counter is untouched, and (when the SELECT
succeeds) `global_total_scans` is filled from the subsequent store
read. -/
theorem c10_panic_safe (idx : GlobalIndex) (input : WorkerInput)
    (db : StatsDb) (incOk : Bool)
    (h : runWorker idx input = none) :
    (identifyHandler idx input db incOk true).1.card = none ∧
    (identifyHandler idx input db incOk true).1.confidence = 0 ∧
    (identifyHandler idx input db incOk true).1.global_total_scans = db.total ∧
    (identifyHandler idx input db incOk true).2 = db := by
  unfold identifyHandler
  rw [h]
  simp [noMatchResult]

/-- C10 witness: a panicked worker with counter 7 answers
`card = none, confidence = 0, global_total_scans = 7`. -/
theorem c10_panic_safe_witness :
    (identifyHandler ⟨[], []⟩ .panicked ⟨7⟩ true true).1.card = none ∧
    (identifyHandler ⟨[], []⟩ .panicked ⟨7⟩ true true).1.confidence = 0 ∧
    (identifyHandler ⟨[], []⟩ .panicked ⟨7⟩ true true).1.global_total_scans = 7 ∧
    (identifyHandler ⟨[], []⟩ .panicked ⟨7⟩ true true).2 = ⟨7⟩ :=
  c10_panic_safe ⟨[], []⟩ .panicked ⟨7⟩ true rfl

/-! ## C9 — card presence vs confidence invariant -/

/-- The report step yields either a no-match with confidence 0 or a card
with at least 50 votes and the capped confidence. -/
theorem report_inv (best : Option Card) (mx : Nat) :
    ((reportResult best mx).card = none ∧
      (reportResult best mx).confidence = 0) ∨
    ((reportResult best mx).card.isSome = true ∧ 50 ≤ mx ∧
      (reportResult best mx).confidence = min ((mx : ℚ) / 100) 1) := by
  cases best with
  | none => exact Or.inl ⟨rfl, rfl⟩
  | some c =>
      by_cases h : MIN_GOOD_MATCHES ≤ mx
      · right
        refine ⟨?_, h, ?_⟩
        · simp only [reportResult, if_pos h]
          rfl
        · simp only [reportResult, if_pos h]
      · left
        simp only [reportResult, if_neg h]
        exact ⟨rfl, rfl⟩

/-- The capped confidence lies in `[1/2, 1]` once at least 50 votes. -/
theorem conf_bounds (mx : Nat) (h : 50 ≤ mx) :
    1 / 2 ≤ min ((mx : ℚ) / 100) 1 ∧ min ((mx : ℚ) / 100) 1 ≤ 1 := by
  constructor
  · apply le_min
    · have h2 : (50 : ℚ) ≤ (mx : ℚ) := by exact_mod_cast h
      linarith
    · norm_num
  · exact min_le_right _ _

/-- The worker's recovered result is either a no-match with confidence 0
or a card with confidence in `[1/2, 1]`. -/
theorem scan_inv (idx : GlobalIndex) (input : WorkerInput) :
    (((runWorker idx input).getD noMatchResult).card = none ∧
      ((runWorker idx input).getD noMatchResult).confidence = 0) ∨
    (((runWorker idx input).getD noMatchResult).card.isSome = true ∧
      1 / 2 ≤ ((runWorker idx input).getD noMatchResult).confidence ∧
      ((runWorker idx input).getD noMatchResult).confidence ≤ 1) := by
  cases input with
  | matched ms voteIter =>
      cases haggr : aggregateCards idx.cards voteIter with
      | none =>
          have hw : runWorker idx (.matched ms voteIter) = none := by
            simp [runWorker, haggr]
          rw [hw]
          exact Or.inl ⟨rfl, rfl⟩
      | some acc =>
          have hw : runWorker idx (.matched ms voteIter) =
              some (reportResult acc.2 acc.1) := by
            simp [runWorker, haggr]
          rw [hw]
          simp only [Option.getD_some]
          rcases report_inv acc.2 acc.1 with ⟨h1, h2⟩ | ⟨h1, h2, h3⟩
          · exact Or.inl ⟨h1, h2⟩
          · right
            obtain ⟨hb1, hb2⟩ := conf_bounds acc.1 h2
            rw [h3]
            exact ⟨h1, hb1, hb2⟩
  | panicked => exact Or.inl ⟨rfl, rfl⟩
  | decodeFailed => exact Or.inl ⟨rfl, rfl⟩
  | akazeFailed => exact Or.inl ⟨rfl, rfl⟩
  | noFeatures => exact Or.inl ⟨rfl, rfl⟩
  | queryMatFailed => exact Or.inl ⟨rfl, rfl⟩
  | matcherCreateFailed => exact Or.inl ⟨rfl, rfl⟩
  | addFailed => exact Or.inl ⟨rfl, rfl⟩
  | trainFailed => exact Or.inl ⟨rfl, rfl⟩
  | knnFailed => exact Or.inl ⟨rfl, rfl⟩

/-- The tail section only rewrites `global_total_scans`: card and
confidence pass through unchanged. -/
theorem handler_card_conf (idx : GlobalIndex) (input : WorkerInput)
    (db : StatsDb) (incOk readOk : Bool) :
    (identifyHandler idx input db incOk readOk).1.card =
      ((runWorker idx input).getD noMatchResult).card ∧
    (identifyHandler idx input db incOk readOk).1.confidence =
      ((runWorker idx input).getD noMatchResult).confidence := by
  unfold identifyHandler
  cases readOk <;> simp

/-- C9: every response of the identify service has either a null card
with confidence exactly 0, or a non-null card with confidence in
`[0.5, 1]`; hence card presence is equivalent to confidence ≥ 0.5 and no
response carries a confidence strictly between 0 and 0.5. -/
theorem c9_confidence_invariant (idx : GlobalIndex) (input : WorkerInput)
    (db : StatsDb) (incOk readOk : Bool) :
    (((identifyHandler idx input db incOk readOk).1.card = none ∧
        (identifyHandler idx input db incOk readOk).1.confidence = 0) ∨
      ((identifyHandler idx input db incOk readOk).1.card.isSome = true ∧
        1 / 2 ≤ (identifyHandler idx input db incOk readOk).1.confidence ∧
        (identifyHandler idx input db incOk readOk).1.confidence ≤ 1)) ∧
    ((identifyHandler idx input db incOk readOk).1.card.isSome = true ↔
      1 / 2 ≤ (identifyHandler idx input db incOk readOk).1.confidence) := by
  obtain ⟨hc, hf⟩ := handler_card_conf idx input db incOk readOk
  rcases scan_inv idx input with ⟨h1, h2⟩ | ⟨h1, h2, h3⟩
  · constructor
    · exact Or.inl ⟨hc.trans h1, hf.trans h2⟩
    · constructor
      · intro hsome
        rw [hc, h1] at hsome
        cases hsome
      · intro hge
        rw [hf, h2] at hge
        norm_num at hge
  · constructor
    · right
      refine ⟨?_, ?_, ?_⟩
      · rw [hc]; exact h1
      · rw [hf]; exact h2
      · rw [hf]; exact h3
    · constructor
      · intro _
        rw [hf]; exact h2
      · intro _
        rw [hc]; exact h1

/-! ## C5 — index build: exclusion and alignment -/

/-- A stored row whose descriptor blob is empty. -/
def emptyAkazeRow : DbRow :=
  { id := "1-2", name := "E", subtitle := "", phash := "bb"
    image_url := "u", akaze_data := [], rarity := "Common"
    set_code := "1", card_number := 2 }

/-- C5 counterexample: `load_index` does NOT exclude a record with empty
`akaze_data` — the empty blob decodes to the empty matrix and the record
is kept, with a 0-column matrix (not 61) in the descriptor stack. -/
theorem c5_counterexample :
    emptyAkazeRow.akaze_data = [] ∧
    (load_index [emptyAkazeRow]).cards = [rowToCard emptyAkazeRow] ∧
    (load_index [emptyAkazeRow]).train_vec = [⟨0, 0, []⟩] ∧
    (MatE.mk 0 0 []).cols ≠ 61 :=
  ⟨rfl, rfl, rfl, by decide⟩

/-- C5 (amended): `load_index` keeps a record iff its blob decodes —
which includes the empty blob, kept with an empty matrix — and the
record list and matrix stack stay index-aligned: equal length, each
matrix holding exactly its record's bytes, and every matrix whose
record's `akaze_data` is a non-empty multiple of 61 bytes has exactly 61
columns. -/
theorem c5_index_aligned (rows : List DbRow) :
    (load_index rows).train_vec.length = (load_index rows).cards.length ∧
    ∀ mc ∈ (load_index rows).train_vec.zip (load_index rows).cards,
      mc.1.data = mc.2.akaze_data ∧
      (mc.2.akaze_data ≠ [] → mc.2.akaze_data.length % 61 = 0 →
        mc.1.cols = 61) := by
  induction rows with
  | nil =>
      refine ⟨rfl, ?_⟩
      intro mc hmc
      cases hmc
  | cons row rest ih =>
      obtain ⟨ihlen, ihmem⟩ := ih
      cases hdec : akaze_bytes_to_mat row.akaze_data with
      | ok m =>
          have hstep : load_index (row :: rest) =
              ⟨m :: (load_index rest).train_vec,
               rowToCard row :: (load_index rest).cards⟩ := by
            simp [load_index, hdec]
          rw [hstep]
          constructor
          · simpa using ihlen
          · intro mc hmc
            rw [List.zip_cons_cons] at hmc
            rcases List.mem_cons.mp hmc with heq | hmem
            · subst heq
              obtain ⟨hd, hcols⟩ := akaze_ok_inv row.akaze_data m hdec
              exact ⟨hd, hcols⟩
            · exact ihmem mc hmem
      | error e =>
          have hstep : load_index (row :: rest) = load_index rest := by
            simp [load_index, hdec]
          rw [hstep]
          exact ⟨ihlen, ihmem⟩

/-- A stored row with one full 61-byte descriptor. -/
def row61 : DbRow :=
  { id := "1-3", name := "R", subtitle := "", phash := "cc"
    image_url := "u", akaze_data := List.replicate 61 5, rarity := "Rare"
    set_code := "1", card_number := 3 }

/-- C5 witness: a one-record index is aligned and its matrix has 61
columns. -/
theorem c5_index_aligned_witness :
    (load_index [row61]).train_vec.length = (load_index [row61]).cards.length ∧
    (MatE.mk 1 61 (List.replicate 61 5)).cols = 61 :=
  ⟨(c5_index_aligned [row61]).1,
   ((c5_index_aligned [row61]).2
      (⟨1, 61, List.replicate 61 5⟩, rowToCard row61) (by decide)).2
      (by decide) (by decide)⟩

/-! ## C1 — winner selection and tie-breaking -/

/-- Invariant of the vote-aggregation loop, generalized over the
accumulator: the fold succeeds when every entry's index is in range, its
maximum dominates the accumulator and every entry, and the best card is
either the accumulator's or comes from an entry realizing the maximum. -/
theorem agg_go (cards : List Card) (iter : List (Nat × Nat))
    (acc : Nat × Option Card)
    (hin : ∀ p ∈ iter, p.1 < cards.length) :
    ∃ mx best,
      iter.foldlM
        (fun acc p =>
          if acc.1 < p.2 then (cards.get? p.1).map (fun c => (p.2, some c))
          else some acc)
        acc = some (mx, best) ∧
      acc.1 ≤ mx ∧
      (∀ p ∈ iter, p.2 ≤ mx) ∧
      ((mx = acc.1 ∧ best = acc.2) ∨
        ∃ i c, (i, mx) ∈ iter ∧ cards.get? i = some c ∧ best = some c) := by
  induction iter generalizing acc with
  | nil =>
      exact ⟨acc.1, acc.2, rfl, le_refl _,
        (by intro p hp; cases hp), Or.inl ⟨rfl, rfl⟩⟩
  | cons q rest ih =>
      have hq : q.1 < cards.length := hin q (List.mem_cons_self q rest)
      have hrest : ∀ p ∈ rest, p.1 < cards.length := by
        intro p hp; exact hin p (List.mem_cons_of_mem q hp)
      by_cases hgt : acc.1 < q.2
      · have hc : cards.get? q.1 = some (cards.get ⟨q.1, hq⟩) :=
          List.get?_eq_get hq
        set c := cards.get ⟨q.1, hq⟩ with hcdef
        obtain ⟨mx, best, hfold, hle, hall, hdisj⟩ := ih (q.2, some c) hrest
        refine ⟨mx, best, ?_, ?_, ?_, ?_⟩
        · rw [List.foldlM_cons, if_pos hgt, hc]
          simpa using hfold
        · omega
        · intro p hp
          rcases List.mem_cons.mp hp with rfl | hmem
          · exact hle
          · exact hall p hmem
        · rcases hdisj with ⟨hmx, hbest⟩ | ⟨i, c', hmem, hget, hbest⟩
          · right
            refine ⟨q.1, c, ?_, hc, hbest⟩
            have : (q.1, mx) = q := by
              rw [hmx]
            rw [this]
            exact List.mem_cons_self q rest
          · exact Or.inr ⟨i, c', List.mem_cons_of_mem q hmem, hget, hbest⟩
      · obtain ⟨mx, best, hfold, hle, hall, hdisj⟩ := ih acc hrest
        refine ⟨mx, best, ?_, hle, ?_, ?_⟩
        · rw [List.foldlM_cons, if_neg hgt]
          exact hfold
        · intro p hp
          rcases List.mem_cons.mp hp with rfl | hmem
          · omega
          · exact hall p hmem
        · rcases hdisj with ⟨hmx, hbest⟩ | ⟨i, c', hmem, hget, hbest⟩
          · exact Or.inl ⟨hmx, hbest⟩
          · exact Or.inr ⟨i, c', List.mem_cons_of_mem q hmem, hget, hbest⟩

/-- C1 (amended): for every in-range iteration sequence of a non-empty
votes map, the aggregation loop returns a card whose vote count is the
maximum of all entries; WHICH tied entry wins depends on the iteration
order of the hash map (the first strict improvement is kept), so the
lowest `img_idx` is not guaranteed. -/
theorem c1_argmax (cards : List Card) (iter : List (Nat × Nat))
    (hin : ∀ p ∈ iter, p.1 < cards.length)
    (hpos : ∀ p ∈ iter, 0 < p.2)
    (hne : iter ≠ []) :
    ∃ mx i c,
      aggregateCards cards iter = some (mx, some c) ∧
      (i, mx) ∈ iter ∧
      cards.get? i = some c ∧
      ∀ p ∈ iter, p.2 ≤ mx := by
  obtain ⟨mx, best, hfold, hle, hall, hdisj⟩ := agg_go cards iter (0, none) hin
  rcases hdisj with ⟨hmx, hbest⟩ | ⟨i, c, hmem, hget, hbest⟩
  · exfalso
    obtain ⟨q, hq⟩ := List.exists_mem_of_ne_nil iter hne
    have h1 : 0 < q.2 := hpos q hq
    have h2 : q.2 ≤ mx := hall q hq
    omega
  · subst hbest
    exact ⟨mx, i, c, hfold, hmem, hget, hall⟩

/-- A reference card fixture indexed by `n`. -/
def mkRefCard (n : Nat) : Card :=
  { id := toString n, name := toString n, subtitle := "", phash := ""
    akaze_data := List.replicate 61 n, image_url := "", rarity := ""
    promo_grouping := none, set_code := "", card_number := n }

/-- Six reference cards. -/
def demoCards : List Card := (List.range 6).map mkRefCard

/-- 100 KNN result groups: 50 votes for reference 2 and 50 for
reference 5 (each group passes the ratio test: 0 < 0.75·1). -/
def demoMatches : List (List DMatch) :=
  List.replicate 50 [⟨0, 2⟩, ⟨1, 5⟩] ++ List.replicate 50 [⟨0, 5⟩, ⟨1, 2⟩]

/-- An index over the six reference cards. -/
def demoIndex : GlobalIndex :=
  ⟨demoCards.map (fun c => ⟨1, 61, c.akaze_data⟩), demoCards⟩

/-- One iteration order of the tied votes map `{2 ↦ 50, 5 ↦ 50}`. -/
def demoIter1 : List (Nat × Nat) := [(2, 50), (5, 50)]

/-- The other iteration order of the same votes map. -/
def demoIter2 : List (Nat × Nat) := [(5, 50), (2, 50)]

/-- C1 counterexample: `demoIter1` and `demoIter2` are both valid
iteration sequences of the same tied votes map (they are permutations of
each other), yet the engine returns reference 2 under one order and
reference 5 under the other — so with a tied maximum the selected card
depends on the hash map's iteration order and is NOT deterministically
the tied reference of smallest index. -/
theorem c1_counterexample :
    validVoteIter demoMatches demoIter1 ∧
    validVoteIter demoMatches demoIter2 ∧
    demoIter1.Perm demoIter2 ∧
    votesOf demoMatches 2 = 50 ∧ votesOf demoMatches 5 = 50 ∧
    (runWorker demoIndex (.matched demoMatches demoIter1)).map ScanResult.card =
      some (some (mkRefCard 2)) ∧
    (runWorker demoIndex (.matched demoMatches demoIter2)).map ScanResult.card =
      some (some (mkRefCard 5)) ∧
    mkRefCard 5 ≠ mkRefCard 2 := by
  refine ⟨?_, ?_, ?_, ?_, ?_, ?_, ?_, ?_⟩
  · unfold validVoteIter
    refine ⟨by decide, by decide, by decide⟩
  · unfold validVoteIter
    refine ⟨by decide, by decide, by decide⟩
  · exact List.Perm.swap (5, 50) (2, 50) []
  · decide
  · decide
  · decide
  · decide
  · decide

/-- C1 witness: on a concrete valid iteration order the aggregation
succeeds. -/
theorem c1_argmax_witness :
    (aggregateCards demoCards demoIter1).isSome = true := by
  obtain ⟨mx, i, c, heq, -, -, -⟩ :=
    c1_argmax demoCards demoIter1 (by decide) (by decide) (by decide)
  rw [heq]
  rfl

/-! ## C8 — descriptor bytes in the identify response -/

/-- A stored row with a full descriptor, to be matched. -/
def matchedRow : DbRow :=
  { id := "1-1", name := "A", subtitle := "", phash := "aa"
    image_url := "u", akaze_data := List.replicate 61 7, rarity := "Common"
    set_code := "1", card_number := 1 }

/-- The index over that single row. -/
def matchedIndex : GlobalIndex := load_index [matchedRow]

/-- 50 KNN groups all voting for reference 0. -/
def matchedQuery : List (List DMatch) := List.replicate 50 [⟨0, 0⟩, ⟨1, 0⟩]

/-- The full identify response for that query (counter starts at 0, both
store operations succeed). -/
def matchedResp : ScanResult :=
  (identifyHandler matchedIndex (.matched matchedQuery [(0, 50)]) ⟨0⟩ true true).1

set_option maxRecDepth 8000 in
/-- C8 counterexample: a matched identify response serializes WITH the
`akaze_data` descriptor bytes inside the card object — serde's
`skip_serializing_if = "Vec::is_empty"` omits the field only when the
buffer is empty, and a matched card from the index carries its non-empty
buffer — so the claim that no response JSON ever contains descriptor
bytes is false. -/
theorem c8_counterexample :
    validVoteIter matchedQuery [(0, 50)] ∧
    matchedResp.card = some (rowToCard matchedRow) ∧
    (rowToCard matchedRow).akaze_data ≠ [] ∧
    matchedResp.global_total_scans = 1 ∧
    serializeScanResult matchedResp =
      Json.obj
        [("card", Json.obj (cardFields (rowToCard matchedRow))),
         ("confidence", Json.num matchedResp.confidence),
         ("global_total_scans", Json.num (matchedResp.global_total_scans : ℚ))] ∧
    ("akaze_data",
       Json.arr ((List.replicate 61 7).map (fun b => Json.num (b : ℚ))))
      ∈ cardFields (rowToCard matchedRow) := by
  refine ⟨?_, ?_, ?_, ?_, ?_, ?_⟩
  · unfold validVoteIter
    refine ⟨by decide, by decide, by decide⟩
  · decide
  · decide
  · decide
  · rfl
  · have h : cardFields (rowToCard matchedRow) =
        [("id", Json.str "1-1"), ("name", Json.str "A"),
         ("subtitle", Json.str ""), ("phash", Json.str "aa"),
         ("akaze_data",
           Json.arr ((List.replicate 61 7).map (fun b => Json.num (b : ℚ)))),
         ("image_url", Json.str "u"), ("rarity", Json.str "Common"),
         ("promo_grouping", Json.null), ("set_code", Json.str "1"),
         ("card_number", Json.num ((1 : Nat) : ℚ))] := rfl
    rw [h]
    exact List.mem_cons_of_mem _ (List.mem_cons_of_mem _
      (List.mem_cons_of_mem _ (List.mem_cons_of_mem _
        (List.mem_cons_self _ _))))

/-- C8 (amended): the response JSON carries the card's `akaze_data`
bytes exactly when the matched card's buffer is non-empty; only a
no-match response (or an empty buffer, which the index never produces
for a votable card) omits them. -/
theorem c8_serialization (c : Card) :
    (c.akaze_data = [] → ∀ j, ("akaze_data", j) ∉ cardFields c) ∧
    (c.akaze_data ≠ [] →
      ("akaze_data", Json.arr (c.akaze_data.map (fun b => Json.num (b : ℚ))))
        ∈ cardFields c) ∧
    (∀ r : ScanResult, r.card = none →
      serializeScanResult r =
        Json.obj
          [("card", Json.null), ("confidence", Json.num r.confidence),
           ("global_total_scans", Json.num (r.global_total_scans : ℚ))]) := by
  refine ⟨?_, ?_, ?_⟩
  · intro hempty j hmem
    have hkeys : "akaze_data" ∈ (cardFields c).map Prod.fst :=
      List.mem_map_of_mem Prod.fst hmem
    have h2 : (cardFields c).map Prod.fst =
        ["id", "name", "subtitle", "phash", "image_url", "rarity",
         "promo_grouping", "set_code", "card_number"] := by
      unfold cardFields
      rw [if_pos (by rw [hempty]; rfl)]
      simp
    rw [h2] at hkeys
    exact absurd hkeys (by decide)
  · intro hne
    have h : c.akaze_data.isEmpty = false := by
      cases hl : c.akaze_data with
      | nil => exact absurd hl hne
      | cons x xs => rfl
    simp only [cardFields, h, Bool.false_eq_true, if_false]
    exact List.mem_append_left _
      (List.mem_append_right _ (List.mem_cons_self _ _))
  · intro r hr
    unfold serializeScanResult
    rw [hr]

/-- A card with a two-byte (non-empty) descriptor buffer. -/
def nonEmptyCard : Card := { testCard with akaze_data := [1, 2] }

/-- C8 witness: a non-empty buffer is serialized into the card object. -/
theorem c8_serialization_witness :
    ("akaze_data", Json.arr (([1, 2] : List Nat).map (fun b => Json.num (b : ℚ))))
      ∈ cardFields nonEmptyCard :=
  (c8_serialization nonEmptyCard).2.1 (by decide)
